import Mathlib

/-!
Shallow embedding of the LineNotifier scheduled-delivery engine.

The definitions below are translated from the repository's route file
revision that contains the one-minute scheduler tick (the revision using
moment-timezone; its `setInterval` callback handles both single and
periodic messages), from the in-memory record store (`MemStorage` in
`server/storage.ts`), and — where a claim cites it — from the older tick
in `server/routes.ts`.

Time values are modelled by the observations the code actually takes from
a moment-timezone value: the epoch milliseconds (`valueOf`), the Taipei
calendar fields (`year`, `month` 0-11, `date` day-of-month, `day`
day-of-week), the locale week used by `isSame(_, 'week')`, and the
time-of-day (`hour`, `minute`).  `parseInt` on group-id strings is
abstracted by storing group ids as naturals.
-/

namespace LineNotifier

/-- Observations the scheduler takes from a moment-timezone value. -/
structure TWMoment where
  epoch : Int
  year : Int
  month : Nat
  date : Nat
  day : Nat
  week : Nat
  weekYear : Int
  hour : Nat
  minute : Nat
deriving DecidableEq

/-- A Group record: id, display name and LINE channel id. -/
structure Group where
  id : Nat
  name : String
  lineId : String
deriving DecidableEq

/-- The Settings record as read by the tick. -/
structure LineSettings where
  lineApiToken : Option String
  lineChannelSecret : Option String
  lastSynced : Option String
  isConnected : Bool
deriving DecidableEq

/-- A message as seen by the tick, with its date strings already parsed:
`scheduledTime = none` models a missing or unparsable scheduled time
(both make every moment comparison on it false). -/
structure TickMsg where
  id : Nat
  title : String
  content : String
  type : String
  status : String
  recurringActive : Bool
  recurringType : Option String
  scheduledTime : Option TWMoment
  lastSent : Option TWMoment
  groupIds : List Nat
  currency : Option String
  amount : Option String
deriving DecidableEq

/-- JavaScript truthiness of a nullable string field. -/
def truthyStr : Option String → Bool
  | none => false
  | some s => !(s == "")

/-- `isSame(_, 'day')` on Taipei moments: same calendar day. -/
def sameDay (a b : TWMoment) : Bool :=
  a.year == b.year && a.month == b.month && a.date == b.date

/-- `isSame(_, 'week')` on Taipei moments: same locale week. -/
def sameWeek (a b : TWMoment) : Bool :=
  a.weekYear == b.weekYear && a.week == b.week

/-- `isSame(_, 'month')` on Taipei moments: same month of the same year. -/
def sameMonth (a b : TWMoment) : Bool :=
  a.year == b.year && a.month == b.month

/-- `isSame(_, 'year')` on Taipei moments: same calendar year. -/
def sameYear (a b : TWMoment) : Bool :=
  a.year == b.year

/-- Currency symbol mapping from the tick's if/else chain. -/
def currencySymbol (c : String) : String :=
  if c == "TWD" then "NT$"
  else if c == "USD" then "US$"
  else if c == "AUD" then "AU$"
  else ""

/-- JavaScript `hay.includes(needle)` on the character lists. -/
def listContains (hay needle : List Char) : Bool :=
  match hay with
  | [] => needle.isEmpty
  | c :: t => needle.isPrefixOf (c :: t) || listContains t needle

/-- JavaScript `s.includes(sub)`. -/
def containsStr (s sub : String) : Bool :=
  listContains s.data sub.data

/-- The global regex replace of an ideographic full stop not followed by a
line break with the stop plus a line break, scanning left to right. -/
def segBreakChars : List Char → List Char
  | [] => []
  | c :: rest =>
    if c == '。' then
      if rest.head? == some '\n' then c :: segBreakChars rest
      else c :: '\n' :: segBreakChars rest
    else c :: segBreakChars rest

/-- The sentence-segmentation step applied to the final content. -/
def segmentBreaks (s : String) : String :=
  String.mk (segBreakChars s.data)

/-- The currency/amount step of the content formatting: when both fields
are truthy and the rendered symbol-amount string is not already a
substring of the content, append the amount line. -/
def applyCurrencyAmount (content : String) (currency amount : Option String) : String :=
  if truthyStr currency && truthyStr amount then
    let sym := currencySymbol (currency.getD "")
    let amt := amount.getD ""
    if containsStr content (sym ++ amt) then content
    else content ++ "\n\n金額: " ++ sym ++ amt
  else content

/-- The full content formatting performed by the tick before the fan-out:
currency/amount annotation first, then segmentation. -/
def formatContent (content : String) (currency amount : Option String) : String :=
  segmentBreaks (applyCurrencyAmount content currency amount)

/-- `storage.getGroup` against the group table. -/
def getGroupById (gs : List Group) (gid : Nat) : Option Group :=
  gs.find? (fun g => g.id == gid)

/-- Environment a tick runs in: the group table, the settings record, the
process environment token, the notifier (true means the send succeeded,
false means `sendLineMessage` threw) and the current Taipei time. -/
structure TickEnv where
  groups : List Group
  settings : Option LineSettings
  envToken : Option String
  sendOk : String → Bool
  now : TWMoment

/-- Resolution of a message's group ids: look every id up and keep the
defined results. -/
def validGroupsOf (env : TickEnv) (m : TickMsg) : List Group :=
  (m.groupIds.map (getGroupById env.groups)).filterMap id

/-- The tick's LINE-token guard: skip unless settings exist and either the
stored token or the environment token is truthy. -/
def tokenConfigured (env : TickEnv) : Bool :=
  match env.settings with
  | none => false
  | some s => truthyStr s.lineApiToken || truthyStr env.envToken

/-- The per-group fan-out loop computing `allSuccess`.  A group with id 18
is attempted but its own try/catch swallows any failure, so it can never
set `allSuccess` to false; any other group's failed send does. -/
def fanOutAllSuccess (sendOk : String → Bool) (gs : List Group) : Bool :=
  gs.foldl
    (fun allSuccess g =>
      if g.id == 18 then allSuccess
      else if sendOk g.lineId then allSuccess else false)
    true

/-- The partial update the tick passes to `storage.updateMessage`. -/
structure MsgUpdate where
  status : String
  lastSent : Option TWMoment
deriving DecidableEq

/-- What processing one message in the tick did: whether the due test
passed, the resolved groups, the persisted update if any, whether the
record was deleted, and the formatted content with the aggregate result
when a fan-out was performed. -/
structure ProcOutcome where
  due : Bool
  validGroups : List Group
  update : Option MsgUpdate
  deleted : Bool
  sent : Option (String × Bool)
deriving DecidableEq

/-- Outcome of a message whose due test failed: nothing happens. -/
def notDueOutcome : ProcOutcome := ⟨false, [], none, false, none⟩

/-- The single-message branch of the tick: due when the current epoch has
reached the scheduled epoch; zero resolved groups persist `failed`;
otherwise, if the token is configured, format, fan out, persist the
`sent`/`partial` status with `lastSent := now`, and delete the record when
a non-periodic message fully succeeded. -/
def procSingleMessage (env : TickEnv) (m : TickMsg) : ProcOutcome :=
  match m.scheduledTime with
  | none => notDueOutcome
  | some st =>
    if st.epoch ≤ env.now.epoch then
      let vgs := validGroupsOf env m
      if vgs.isEmpty then ⟨true, vgs, some ⟨"failed", none⟩, false, none⟩
      else if tokenConfigured env then
        let fc := formatContent m.content m.currency m.amount
        let ok := fanOutAllSuccess env.sendOk vgs
        ⟨true, vgs, some ⟨if ok then "sent" else "partial", some env.now⟩,
          m.type != "periodic" && ok, some (fc, ok)⟩
      else ⟨true, vgs, none, false, none⟩
    else notDueOutcome

/-- The periodic due decision (`shouldSend`) of the tick: time-of-day
threshold in minutes, the period-specific calendar match, and the
not-already-sent-this-period gate against `lastSent` (or, when absent,
the schedule anchor). -/
def shouldSendRecurring (m : TickMsg) (now : TWMoment) : Bool :=
  match m.scheduledTime with
  | none => false
  | some st =>
    let lastRef := m.lastSent.getD st
    let cur := now.hour * 60 + now.minute
    let sch := st.hour * 60 + st.minute
    match m.recurringType with
    | none => false
    | some rt =>
      if rt == "daily" then
        decide (sch ≤ cur) && !(sameDay lastRef now)
      else if rt == "weekly" then
        decide (sch ≤ cur) && now.day == st.day && !(sameWeek lastRef now)
      else if rt == "monthly" then
        decide (sch ≤ cur) && now.date == st.date && !(sameMonth lastRef now)
      else if rt == "yearly" then
        decide (sch ≤ cur) && now.date == st.date && now.month == st.month
          && !(sameYear lastRef now)
      else false

/-- The periodic branch of the tick: when due, resolve groups (zero
resolved groups just skip the message — no status write), format, check
the token, fan out, and persist `status := "scheduled"` with
`lastSent := now` regardless of the aggregate result. -/
def procRecurringMessage (env : TickEnv) (m : TickMsg) : ProcOutcome :=
  if shouldSendRecurring m env.now then
    let vgs := validGroupsOf env m
    if vgs.isEmpty then ⟨true, vgs, none, false, none⟩
    else
      let fc := formatContent m.content m.currency m.amount
      if tokenConfigured env then
        let ok := fanOutAllSuccess env.sendOk vgs
        ⟨true, vgs, some ⟨"scheduled", some env.now⟩, false, some (fc, ok)⟩
      else ⟨true, vgs, none, false, none⟩
  else notDueOutcome

/-- The filter selecting messages a tick considers at all. -/
def isPendingStatus (m : TickMsg) : Bool := m.status == "scheduled"

/-- The due evaluation the tick applies to a message handled by the
single-message branch: it must have survived the pending filter and the
single filter, and the current epoch must have reached the scheduled
epoch. -/
def singleDueEval (m : TickMsg) (now : TWMoment) : Bool :=
  isPendingStatus m && (m.type != "periodic" || !m.recurringActive) &&
    (match m.scheduledTime with
     | none => false
     | some st => decide (st.epoch ≤ now.epoch))

/-- `storage.updateMessage` applied to a tick update: the partial object
overwrites `status` always and `lastSent` when present. -/
def applyUpdate (m : TickMsg) (u : Option MsgUpdate) : TickMsg :=
  match u with
  | none => m
  | some u =>
    { m with
      status := u.status
      lastSent := match u.lastSent with | none => m.lastSent | some t => some t }

/-! The older tick in `server/routes.ts` evaluates periodic messages with
hand-rolled date arithmetic: it shifts every `Date` by eight hours and
then reads the `getUTC*` accessors.  A `JsDate` records the observations
it takes from such a shifted date. -/

/-- Calendar observations of a (shifted) JavaScript `Date`. -/
structure JsDate where
  year : Int
  month : Nat
  date : Nat
  day : Nat
  hours : Nat
  minutes : Nat
deriving DecidableEq

/-- The daily case of the `server/routes.ts` tick: fire only when the
current hour equals the anchor hour, the current minute lies within five
minutes past the anchor minute, and the last send was on another day. -/
def routesDailyShouldSend (sched now last : JsDate) : Bool :=
  now.hours == sched.hours &&
  decide (sched.minutes ≤ now.minutes) &&
  decide (now.minutes < sched.minutes + 5) &&
  (!(last.date == now.date) || !(last.month == now.month) || !(last.year == now.year))

/-! The tick's two for-loops wrap the body of each iteration in its own
try/catch, and the whole callback in an outer try/catch.  `loopWithCatch`
embeds such a loop over a body that may raise: the body's result — error
or not — is recorded, and the loop moves on. -/

/-- One guarded for-loop of the tick: every iteration records its body's
own result (the per-message catch) and continues with the rest. -/
def loopWithCatch {α β : Type} (f : α → Except String β) :
    List α → Except String (List (α × Except String β))
  | [] => Except.ok []
  | m :: rest =>
    let r := f m
    match loopWithCatch f rest with
    | Except.error e => Except.error e
    | Except.ok acc => Except.ok ((m, r) :: acc)

/-- Everything one tick recorded. -/
structure TickLog where
  singleResults : List (TickMsg × Except String ProcOutcome)
  recurringResults : List (TickMsg × Except String ProcOutcome)

/-- The tick's pending filter over the loaded messages. -/
def pendingOf (msgs : List TickMsg) : List TickMsg :=
  msgs.filter (fun m => m.status == "scheduled")

/-- The tick's selection for the single-message loop. -/
def singlesOf (msgs : List TickMsg) : List TickMsg :=
  (pendingOf msgs).filter (fun m => m.type != "periodic" || !m.recurringActive)

/-- The tick's selection for the periodic loop. -/
def recurringOf (msgs : List TickMsg) : List TickMsg :=
  (pendingOf msgs).filter (fun m => m.type == "periodic" && m.recurringActive)

/-- The body of the tick callback: both loops in order.  (The early
returns on empty selections are the same as running the loop on an empty
list.) -/
def tickBody (env : TickEnv) (msgs : List TickMsg) : Except String TickLog :=
  match loopWithCatch (fun m => Except.ok (procSingleMessage env m)) (singlesOf msgs) with
  | Except.error e => Except.error e
  | Except.ok sr =>
    match loopWithCatch (fun m => Except.ok (procRecurringMessage env m)) (recurringOf msgs) with
    | Except.error e => Except.error e
    | Except.ok rr => Except.ok ⟨sr, rr⟩

/-- The whole callback with its outer try/catch: an escaping error would
only be logged, never rethrown. -/
def runTick (env : TickEnv) (msgs : List TickMsg) : Option TickLog :=
  match tickBody env msgs with
  | Except.error _ => none
  | Except.ok l => some l

/-! Record store (`MemStorage` in `server/storage.ts`). -/

/-- A parsed insert-message payload (`insertMessageSchema`): `status`
defaults to "scheduled" and `recurringActive` to false during parsing, so
both are always present afterwards; the nullable-optional fields are
options (absent and null both behave the same everywhere they are used). -/
structure InsertMessage where
  title : String
  content : String
  scheduledTime : String
  endTime : Option String
  type : String
  status : String
  groupIds : List String
  currency : Option String
  amount : Option String
  recurringType : Option String
  lastSent : Option String
  recurringActive : Bool
deriving DecidableEq

/-- A stored Message record.  `createMessage` builds the record with an
explicit field list that does not mention the recurrence fields, so those
are options with none meaning the field is undefined on the record. -/
structure MsgRecord where
  id : Nat
  title : String
  content : String
  type : String
  status : String
  createdAt : String
  groupIds : List String
  currency : Option String
  amount : Option String
  scheduledTime : String
  endTime : Option String
  recurringType : Option String
  lastSent : Option String
  recurringActive : Option Bool
deriving DecidableEq

/-- The messages table of `MemStorage` with its id counter. -/
structure MessagesStore where
  messages : Nat → Option MsgRecord
  nextMessageId : Nat

/-- JavaScript `x || null` on a nullable string field. -/
def orNullStr : Option String → Option String
  | none => none
  | some s => if s == "" then none else some s

/-- JavaScript `status || "scheduled"`. -/
def statusOrScheduled (s : String) : String :=
  if s == "" then "scheduled" else s

/-- `MemStorage.createMessage`: assign the next id, stamp `createdAt`,
copy the listed fields with their falsy-value defaults
(`messageData.scheduledTime || ''` is the identity on strings), and store
the record.  The recurrence fields are not part of the record literal. -/
def createMessage (s : MessagesStore) (nowIso : String) (p : InsertMessage) :
    MsgRecord × MessagesStore :=
  let mid := s.nextMessageId
  let msg : MsgRecord :=
    { id := mid
      title := p.title
      content := p.content
      type := p.type
      status := statusOrScheduled p.status
      createdAt := nowIso
      groupIds := p.groupIds
      currency := orNullStr p.currency
      amount := orNullStr p.amount
      scheduledTime := p.scheduledTime
      endTime := orNullStr p.endTime
      recurringType := none
      lastSent := none
      recurringActive := none }
  (msg, ⟨fun n => if n == mid then some msg else s.messages n, mid + 1⟩)

/-- `MemStorage.getMessage`. -/
def getMessage (s : MessagesStore) (mid : Nat) : Option MsgRecord :=
  s.messages mid

/-! Helper views of the segmentation pass, used to characterise it. -/

/-- Each character paired with its successor. -/
def withNext : List Char → List (Char × Option Char)
  | [] => []
  | c :: rest => (c, rest.head?) :: withNext rest

/-- The local rewriting step of the segmentation pass: an ideographic
full stop not already followed by a line break gains one; every other
character is left alone. -/
def insStep (p : Char × Option Char) : List Char :=
  if p.1 == '。' && !(p.2 == some '\n') then [p.1, '\n'] else [p.1]

/-- Concatenation of a list of character lists. -/
def catLists : List (List Char) → List Char
  | [] => []
  | x :: xs => x ++ catLists xs

/-- The first character of a list, or a fallback for the empty list. -/
def headOr (l : List Char) (nx : Option Char) : Option Char :=
  match l with
  | [] => nx
  | d :: _ => some d

/-- The segmentation pass parameterised by the character that follows the
end of the processed list (used to split the pass across appends). -/
def segAuxChars : List Char → Option Char → List Char
  | [], _ => []
  | c :: rest, nx =>
    if c == '。' then
      if headOr rest nx == some '\n' then c :: segAuxChars rest nx
      else c :: '\n' :: segAuxChars rest nx
    else c :: segAuxChars rest nx

/-- No ideographic full stop of the list lacks a following line break. -/
def noBare : List Char → Bool
  | [] => true
  | c :: rest =>
    if c == '。' then
      if rest.head? == some '\n' then noBare rest else false
    else noBare rest

/-- The period-specific extra calendar condition of the tick's periodic
due test, by recurrence type. -/
def periodExtraMatch (rt : String) (st now : TWMoment) : Bool :=
  if rt == "daily" then true
  else if rt == "weekly" then now.day == st.day
  else if rt == "monthly" then now.date == st.date
  else if rt == "yearly" then now.date == st.date && now.month == st.month
  else false

/-- The already-sent-this-period comparison of the tick's periodic due
test, by recurrence type. -/
def sameInstance (rt : String) (a b : TWMoment) : Bool :=
  if rt == "daily" then sameDay a b
  else if rt == "weekly" then sameWeek a b
  else if rt == "monthly" then sameMonth a b
  else if rt == "yearly" then sameYear a b
  else false

/-! Concrete fixtures used to evaluate the embedding on explicit inputs. -/

/-- An ordinary target group. -/
def gEng : Group := ⟨1, "工程師組", "C536c0214d33c80eeac1b084953dd168b"⟩

/-- The special-cased group with id 18. -/
def gAnkor : Group := ⟨18, "安可淘比", "C164037891996ce50ce13c0cba24e154f"⟩

/-- Settings with a configured LINE token. -/
def settingsTok : LineSettings := ⟨some "token-abc", none, none, true⟩

/-- A notifier for which every send fails (throws). -/
def sendNever : String → Bool := fun _ => false

/-- A notifier for which every send succeeds. -/
def sendAlways : String → Bool := fun _ => true

/-- Anchor: Sunday 2026-10-11, 09:00 Taipei. -/
def twAnchor : TWMoment :=
  { epoch := 1760144400000, year := 2026, month := 9, date := 11, day := 0,
    week := 42, weekYear := 2026, hour := 9, minute := 0 }

/-- Current time: Monday 2026-10-12, 09:10 Taipei. -/
def twNow : TWMoment :=
  { epoch := 1760231400000, year := 2026, month := 9, date := 12, day := 1,
    week := 42, weekYear := 2026, hour := 9, minute := 10 }

/-- Later the same day: Monday 2026-10-12, 10:30 Taipei. -/
def twNowLater : TWMoment :=
  { epoch := 1760236200000, year := 2026, month := 9, date := 12, day := 1,
    week := 42, weekYear := 2026, hour := 10, minute := 30 }

/-- A scheduled daily periodic message targeting group 1. -/
def msgDaily : TickMsg :=
  { id := 7, title := "入帳通知", content := "hello", type := "periodic",
    status := "scheduled", recurringActive := true, recurringType := some "daily",
    scheduledTime := some twAnchor, lastSent := none, groupIds := [1],
    currency := none, amount := none }

/-- A scheduled single message targeting group 1. -/
def msgSingle : TickMsg :=
  { id := 3, title := "會議提醒", content := "hi", type := "single",
    status := "scheduled", recurringActive := false, recurringType := none,
    scheduledTime := some twAnchor, lastSent := none, groupIds := [1],
    currency := none, amount := none }

/-- Tick environment in which group 1 exists but every send fails. -/
def envSendFail : TickEnv := ⟨[gEng], some settingsTok, none, sendNever, twNow⟩

/-- Tick environment in which group 1 exists and every send succeeds. -/
def envSendWork : TickEnv := ⟨[gEng], some settingsTok, none, sendAlways, twNow⟩

/-- Tick environment with an empty group table. -/
def envNoGroups : TickEnv := ⟨[], some settingsTok, none, sendAlways, twNow⟩

/-- Anchor for the `server/routes.ts` daily check: 09:00. -/
def jsSched : JsDate := ⟨2026, 9, 12, 1, 9, 0⟩

/-- Current time for the `server/routes.ts` daily check: 10:30 the same
day. -/
def jsNow : JsDate := ⟨2026, 9, 12, 1, 10, 30⟩

/-- Last-sent time for the `server/routes.ts` daily check: 09:05 the
previous day. -/
def jsLast : JsDate := ⟨2026, 9, 11, 0, 9, 5⟩

/-- A time inside the five-minute window of `jsSched`: 09:03 the same
day. -/
def jsNow5 : JsDate := ⟨2026, 9, 12, 1, 9, 3⟩

/-- The daily message after a send today. -/
def msgDailySent : TickMsg := { msgDaily with lastSent := some twNow }

/-- An empty message table. -/
def emptyStore : MessagesStore := ⟨fun _ => none, 1⟩

/-- A valid parsed payload with an empty-string currency and the
recurrence fields set. -/
def payloadCex : InsertMessage :=
  { title := "收款通知", content := "內容", scheduledTime := "2026-10-12T01:00:00.000Z",
    endTime := none, type := "periodic", status := "scheduled", groupIds := ["1"],
    currency := some "", amount := some "5000", recurringType := some "daily",
    lastSent := none, recurringActive := true }

/-! Helper lemmas (shared between the claim theorems). -/

theorem headOr_none (l : List Char) : headOr l none = l.head? := by
  cases l <;> rfl

theorem fanOut_foldl (sendOk : String → Bool) :
    ∀ (gs : List Group) (acc : Bool),
      gs.foldl
        (fun allSuccess g =>
          if g.id == 18 then allSuccess
          else if sendOk g.lineId then allSuccess else false)
        acc
      = (acc && gs.all (fun g => g.id == 18 || sendOk g.lineId)) := by
  intro gs
  induction gs with
  | nil => intro acc; simp
  | cons g t ih =>
    intro acc
    rw [List.foldl_cons, ih]
    by_cases h18 : g.id == 18
    · simp [h18, Bool.and_assoc]
    · by_cases hok : sendOk g.lineId <;>
        simp [h18, hok, Bool.and_assoc]

theorem shouldSendRecurring_char (m : TickMsg) (now st : TWMoment) (rt : String)
    (h1 : m.scheduledTime = some st) (h2 : m.recurringType = some rt)
    (h3 : rt = "daily" ∨ rt = "weekly" ∨ rt = "monthly" ∨ rt = "yearly") :
    shouldSendRecurring m now =
      (decide (st.hour * 60 + st.minute ≤ now.hour * 60 + now.minute) &&
        periodExtraMatch rt st now &&
        !(sameInstance rt (m.lastSent.getD st) now)) := by
  rcases h3 with h | h | h | h <;> subst h <;>
    simp [shouldSendRecurring, h1, h2, periodExtraMatch, sameInstance, Bool.and_assoc]

theorem procRecurringMessage_sent (env : TickEnv) (m : TickMsg)
    (hdue : shouldSendRecurring m env.now = true)
    (hg : validGroupsOf env m ≠ [])
    (ht : tokenConfigured env = true) :
    procRecurringMessage env m =
      ⟨true, validGroupsOf env m, some ⟨"scheduled", some env.now⟩, false,
        some (formatContent m.content m.currency m.amount,
              fanOutAllSuccess env.sendOk (validGroupsOf env m))⟩ := by
  have hempty : (validGroupsOf env m).isEmpty = false := by
    cases hvg : validGroupsOf env m with
    | nil => exact absurd hvg hg
    | cons a t => rfl
  simp [procRecurringMessage, hdue, hempty, ht]

theorem loopWithCatch_ok {α β : Type} (f : α → Except String β) :
    ∀ ms : List α, loopWithCatch f ms = Except.ok (ms.map (fun m => (m, f m))) := by
  intro ms
  induction ms with
  | nil => rfl
  | cons m rest ih => simp [loopWithCatch, ih]

theorem segBreak_eq_aux (l : List Char) : segBreakChars l = segAuxChars l none := by
  induction l with
  | nil => rfl
  | cons c rest ih => simp [segBreakChars, segAuxChars, headOr_none, ih]

theorem headOr_append (s t : List Char) (nx : Option Char) :
    headOr (s ++ t) nx = headOr s (headOr t nx) := by
  cases s <;> rfl

theorem segAux_append (s : List Char) :
    ∀ (t : List Char) (nx : Option Char),
      segAuxChars (s ++ t) nx = segAuxChars s (headOr t nx) ++ segAuxChars t nx := by
  induction s with
  | nil => intro t nx; simp [segAuxChars]
  | cons c s' ih =>
    intro t nx
    rw [List.cons_append]
    rw [show segAuxChars (c :: (s' ++ t)) nx =
      (if c == '。' then
        if headOr (s' ++ t) nx == some '\n' then c :: segAuxChars (s' ++ t) nx
        else c :: '\n' :: segAuxChars (s' ++ t) nx
      else c :: segAuxChars (s' ++ t) nx) from rfl]
    rw [show segAuxChars (c :: s') (headOr t nx) =
      (if c == '。' then
        if headOr s' (headOr t nx) == some '\n' then c :: segAuxChars s' (headOr t nx)
        else c :: '\n' :: segAuxChars s' (headOr t nx)
      else c :: segAuxChars s' (headOr t nx)) from rfl]
    rw [headOr_append, ih t nx]
    by_cases hc : c == '。'
    · by_cases hh : headOr s' (headOr t nx) == some '\n' <;> simp [hc, hh]
    · simp [hc]

theorem segAux_not_mem {s : List Char} (nx : Option Char) (h : '。' ∉ s) :
    segAuxChars s nx = s := by
  induction s with
  | nil => rfl
  | cons c s' ih =>
    rw [List.mem_cons] at h
    push_neg at h
    have hc : (c == '。') = false := by
      rw [beq_eq_false_iff_ne]
      exact fun hEq => h.1 hEq.symm
    simp [segAuxChars, hc, ih h.2]

theorem noBare_segBreak (l : List Char) : noBare (segBreakChars l) = true := by
  induction l with
  | nil => rfl
  | cons c rest ih =>
    by_cases hc : c = '。'
    · subst hc
      by_cases hh : rest.head? = some '\n'
      · obtain ⟨r', rfl⟩ : ∃ r', rest = '\n' :: r' := by
          cases rest with
          | nil => simp at hh
          | cons d r' => exact ⟨r', by rw [(by simpa using hh : d = '\n')]⟩
        have e2 : segBreakChars ('\n' :: r') = '\n' :: segBreakChars r' := by
          simp [segBreakChars]
        have e1 : segBreakChars ('。' :: '\n' :: r') = '。' :: segBreakChars ('\n' :: r') := by
          simp [segBreakChars]
        rw [e1, e2]
        rw [e2] at ih
        simp [noBare] at ih
        simp [noBare, ih]
      · have e1 : segBreakChars ('。' :: rest) = '。' :: '\n' :: segBreakChars rest := by
          simp [segBreakChars, hh]
        rw [e1]
        simp [noBare, ih]
    · have e1 : segBreakChars (c :: rest) = c :: segBreakChars rest := by
        simp [segBreakChars, hc]
      rw [e1]
      simp [noBare, hc, ih]

theorem segBreak_of_noBare : ∀ l : List Char, noBare l = true → segBreakChars l = l := by
  intro l
  induction l with
  | nil => intro _; rfl
  | cons c rest ih =>
    intro h
    by_cases hc : c = '。'
    · subst hc
      by_cases hh : rest.head? = some '\n'
      · simp [noBare, hh] at h
        simp [segBreakChars, hh, ih h]
      · simp [noBare, hh] at h
    · simp [noBare, hc] at h
      simp [segBreakChars, hc, ih h]

theorem segBreak_idem (l : List Char) :
    segBreakChars (segBreakChars l) = segBreakChars l :=
  segBreak_of_noBare _ (noBare_segBreak l)

theorem segBreak_not_mem {l : List Char} (h : '。' ∉ l) : segBreakChars l = l := by
  rw [segBreak_eq_aux]
  exact segAux_not_mem none h

theorem listContains_iff (needle : List Char) :
    ∀ hay : List Char,
      listContains hay needle = true ↔ ∃ s t, hay = s ++ needle ++ t := by
  intro hay
  induction hay with
  | nil =>
    simp only [listContains, List.isEmpty_iff]
    constructor
    · rintro rfl; exact ⟨[], [], rfl⟩
    · rintro ⟨s, t, h⟩
      rcases List.append_eq_nil.mp h.symm with ⟨h1, h2⟩
      exact (List.append_eq_nil.mp h1).2
  | cons c t ih =>
    simp only [listContains, Bool.or_eq_true]
    constructor
    · rintro (hpre | hrec)
      · obtain ⟨u, hu⟩ := List.isPrefixOf_iff_prefix.mp hpre
        exact ⟨[], u, by simp [hu.symm]⟩
      · obtain ⟨s, t', h⟩ := ih.mp hrec
        exact ⟨c :: s, t', by simp [h]⟩
    · rintro ⟨s, t', h⟩
      cases s with
      | nil =>
        left
        rw [List.isPrefixOf_iff_prefix]
        exact ⟨t', by simpa using h.symm⟩
      | cons a s' =>
        right
        simp only [List.cons_append, List.cons.injEq] at h
        exact ih.mpr ⟨s', t', h.2⟩

theorem strData_append (a b : String) : (a ++ b).data = a.data ++ b.data := by
  cases a; cases b; rfl

theorem segBreak_preserves_sub {l sub : List Char} (hfree : '。' ∉ sub)
    (h : ∃ s t, l = s ++ sub ++ t) :
    ∃ s t, segBreakChars l = s ++ sub ++ t := by
  obtain ⟨s, t, rfl⟩ := h
  rw [segBreak_eq_aux, List.append_assoc, segAux_append s (sub ++ t) none,
    segAux_append sub t none, segAux_not_mem (headOr t none) hfree]
  exact ⟨segAuxChars s (headOr (sub ++ t) none), segAuxChars t none,
    by rw [List.append_assoc]⟩

theorem segBreak_withNext (l : List Char) :
    segBreakChars l = catLists ((withNext l).map insStep) := by
  induction l with
  | nil => rfl
  | cons c rest ih =>
    simp only [withNext, List.map_cons, catLists, insStep]
    by_cases hc : c == '。'
    · by_cases hh : rest.head? == some '\n' <;>
        simp [segBreakChars, hc, hh, ih]
    · simp [segBreakChars, hc, ih]

/-! The claim theorems. -/

/-- C1 (counterexample): a due message whose only resolved target is the
group with id 18 and whose send fails still yields `allSuccess = true`,
so the aggregate outcome is NOT "true iff every send succeeded": group 18
is exempted from counting as a failure. -/
theorem spec_C1_counterexample :
    fanOutAllSuccess sendNever [gAnkor] = true ∧
    sendNever gAnkor.lineId = false := by decide

/-- C1 (amended): for every due message's fan-out, `allSuccess` is true
iff the Notifier send succeeded for every resolved target whose group id
is not 18; failures of the group with id 18 are tolerated and never count
against the aggregate. -/
theorem spec_C1_amended :
    ∀ (sendOk : String → Bool) (gs : List Group),
      fanOutAllSuccess sendOk gs = true ↔
        ∀ g ∈ gs, g.id = 18 ∨ sendOk g.lineId = true := by
  intro sendOk gs
  rw [show fanOutAllSuccess sendOk gs =
    gs.foldl
      (fun allSuccess g =>
        if g.id == 18 then allSuccess
        else if sendOk g.lineId then allSuccess else false)
      true from rfl]
  rw [fanOut_foldl sendOk gs true]
  simp [List.all_eq_true]

/-- C1 (witness): the amended theorem applied to a one-group fan-out in
which every send succeeds. -/
theorem spec_C1_witness : fanOutAllSuccess sendAlways [gEng] = true :=
  (spec_C1_amended sendAlways [gEng]).mpr (by decide)

/-- C2 (counterexample): a due daily periodic message whose only resolved
target's send fails is persisted with `status = "scheduled"` (not
`"partial"`) and with `lastSent` advanced to the tick time, so it is not
retried within the same period. -/
theorem spec_C2_counterexample :
    (procRecurringMessage envSendFail msgDaily).sent = some ("hello", false) ∧
    (procRecurringMessage envSendFail msgDaily).update =
      some ⟨"scheduled", some twNow⟩ := by decide

/-- C2 (amended): for every due periodic message with at least one
resolved target and a configured token, the tick persists
`status = "scheduled"` and advances `lastSent` to the tick time
regardless of per-target failures; a partially failed periodic message is
therefore not re-attempted until the next period instance. -/
theorem spec_C2_amended (env : TickEnv) (m : TickMsg)
    (hdue : shouldSendRecurring m env.now = true)
    (hg : validGroupsOf env m ≠ [])
    (ht : tokenConfigured env = true) :
    (procRecurringMessage env m).update = some ⟨"scheduled", some env.now⟩ := by
  rw [procRecurringMessage_sent env m hdue hg ht]

/-- C2 (witness): the amended theorem applied to a concrete environment
in which the only target's send fails. -/
theorem spec_C2_witness :
    shouldSendRecurring msgDaily envSendFail.now = true ∧
    validGroupsOf envSendFail msgDaily ≠ [] ∧
    tokenConfigured envSendFail = true ∧
    (procRecurringMessage envSendFail msgDaily).update =
      some ⟨"scheduled", some envSendFail.now⟩ :=
  ⟨by decide, by decide, by decide,
    spec_C2_amended envSendFail msgDaily (by decide) (by decide) (by decide)⟩

/-- C3 (counterexample): in the `server/routes.ts` tick, a tick arriving
at 10:30 for a 09:00 anchor — time-of-day threshold crossed, last send on
another day — does NOT find the daily message due, because that tick
requires the current hour to equal the anchor hour and the minute to lie
within five minutes of the anchor minute. -/
theorem spec_C3_counterexample :
    routesDailyShouldSend jsSched jsNow jsLast = false ∧
    jsSched.hours * 60 + jsSched.minutes ≤ jsNow.hours * 60 + jsNow.minutes ∧
    (jsLast.year, jsLast.month, jsLast.date) ≠ (jsNow.year, jsNow.month, jsNow.date) := by
  decide

/-- C3 (amended): in the moment-timezone tick the time-of-day component
of the periodic due test is exactly the threshold
current hour*60+minute ≥ anchor hour*60+minute, for all four recurrence
types; but the `server/routes.ts` tick fires only when the current hour
equals the anchor hour and the current minute lies in the five-minute
window past the anchor minute, so a tick arriving after that window does
not find the message due. -/
theorem spec_C3_amended :
    (∀ (m : TickMsg) (now st : TWMoment) (rt : String),
      m.scheduledTime = some st → m.recurringType = some rt →
      (rt = "daily" ∨ rt = "weekly" ∨ rt = "monthly" ∨ rt = "yearly") →
      shouldSendRecurring m now =
        (decide (st.hour * 60 + st.minute ≤ now.hour * 60 + now.minute) &&
          periodExtraMatch rt st now &&
          !(sameInstance rt (m.lastSent.getD st) now))) ∧
    (∀ sched now last : JsDate,
      routesDailyShouldSend sched now last = true →
      now.hours = sched.hours ∧ sched.minutes ≤ now.minutes ∧
        now.minutes < sched.minutes + 5) := by
  constructor
  · intro m now st rt h1 h2 h3
    exact shouldSendRecurring_char m now st rt h1 h2 h3
  · intro sched now last h
    simp only [routesDailyShouldSend, Bool.and_eq_true, beq_iff_eq,
      decide_eq_true_eq] at h
    exact ⟨h.1.1.1, h.1.1.2, h.1.2⟩

/-- C3 (witness): both halves of the amended theorem at concrete inputs:
the daily message's due test at 09:10 equals its threshold form, and a
firing of the routes.ts daily check at 09:03 indeed lies in the window. -/
theorem spec_C3_witness :
    (shouldSendRecurring msgDaily twNow =
      (decide (twAnchor.hour * 60 + twAnchor.minute ≤ twNow.hour * 60 + twNow.minute) &&
        periodExtraMatch "daily" twAnchor twNow &&
        !(sameInstance "daily" (msgDaily.lastSent.getD twAnchor) twNow))) ∧
    (jsNow5.hours = jsSched.hours ∧ jsSched.minutes ≤ jsNow5.minutes ∧
      jsNow5.minutes < jsSched.minutes + 5) :=
  ⟨spec_C3_amended.1 msgDaily twNow twAnchor "daily" rfl rfl (Or.inl rfl),
    spec_C3_amended.2 jsSched jsNow5 jsLast (by decide)⟩

/-- C4 (counterexample): a due periodic message whose group ids resolve
to zero valid groups is NOT marked failed: the tick skips it without any
status write, leaves it in `scheduled`, and hence re-evaluates it on
every later tick. -/
theorem spec_C4_counterexample :
    shouldSendRecurring msgDaily envNoGroups.now = true ∧
    procRecurringMessage envNoGroups msgDaily = ⟨true, [], none, false, none⟩ ∧
    isPendingStatus msgDaily = true := by decide

/-- C4 (amended): when zero valid groups resolve, a due SINGLE message is
persisted as `failed` with no delivery attempt and no longer passes the
pending filter (no retry); a due PERIODIC message is skipped with no
status write and no delivery attempt, so it stays `scheduled` and is
re-evaluated on later ticks. -/
theorem spec_C4_amended :
    (∀ (env : TickEnv) (m : TickMsg) (st : TWMoment),
      m.scheduledTime = some st → st.epoch ≤ env.now.epoch →
      validGroupsOf env m = [] →
      procSingleMessage env m = ⟨true, [], some ⟨"failed", none⟩, false, none⟩ ∧
      isPendingStatus { m with status := "failed" } = false) ∧
    (∀ (env : TickEnv) (m : TickMsg),
      shouldSendRecurring m env.now = true → validGroupsOf env m = [] →
      procRecurringMessage env m = ⟨true, [], none, false, none⟩) := by
  constructor
  · intro env m st h1 h2 h3
    constructor
    · simp [procSingleMessage, h1, h2, h3]
    · simp [isPendingStatus]
  · intro env m h1 h2
    simp [procRecurringMessage, h1, h2]

/-- C4 (witness): the amended theorem applied to an environment with an
empty group table, for a due single and a due periodic message. -/
theorem spec_C4_witness :
    (procSingleMessage envNoGroups msgSingle =
        ⟨true, [], some ⟨"failed", none⟩, false, none⟩ ∧
      isPendingStatus { msgSingle with status := "failed" } = false) ∧
    procRecurringMessage envNoGroups msgDaily = ⟨true, [], none, false, none⟩ :=
  ⟨spec_C4_amended.1 envNoGroups msgSingle twAnchor rfl (by decide) (by decide),
    spec_C4_amended.2 envNoGroups msgDaily (by decide) (by decide)⟩

/-- C5: once `lastSent` (or, when absent, the anchor `scheduledTime`)
falls in the same period instance as the current time — same day, locale
week, month or year, by the recurrence's granularity — the periodic due
test is false, so delivery is attempted at most once per period instance;
moreover, after a tick actually processes a due periodic message, any
later tick whose time lies in the same period instance finds the updated
message not due. -/
theorem spec_C5 :
    (∀ (m : TickMsg) (now st : TWMoment) (rt : String),
      m.scheduledTime = some st → m.recurringType = some rt →
      (rt = "daily" ∨ rt = "weekly" ∨ rt = "monthly" ∨ rt = "yearly") →
      sameInstance rt (m.lastSent.getD st) now = true →
      shouldSendRecurring m now = false) ∧
    (∀ (env : TickEnv) (m : TickMsg) (st : TWMoment) (rt : String),
      m.scheduledTime = some st → m.recurringType = some rt →
      (rt = "daily" ∨ rt = "weekly" ∨ rt = "monthly" ∨ rt = "yearly") →
      shouldSendRecurring m env.now = true →
      validGroupsOf env m ≠ [] → tokenConfigured env = true →
      ∀ now' : TWMoment, sameInstance rt env.now now' = true →
        shouldSendRecurring (applyUpdate m (procRecurringMessage env m).update) now'
          = false) := by
  have gate : ∀ (m : TickMsg) (now st : TWMoment) (rt : String),
      m.scheduledTime = some st → m.recurringType = some rt →
      (rt = "daily" ∨ rt = "weekly" ∨ rt = "monthly" ∨ rt = "yearly") →
      sameInstance rt (m.lastSent.getD st) now = true →
      shouldSendRecurring m now = false := by
    intro m now st rt h1 h2 h3 h4
    rw [shouldSendRecurring_char m now st rt h1 h2 h3, h4]
    simp
  refine ⟨gate, ?_⟩
  intro env m st rt h1 h2 h3 hdue hg ht now' hsame
  rw [procRecurringMessage_sent env m hdue hg ht]
  apply gate _ now' st rt ?_ ?_ h3 ?_
  · simpa [applyUpdate] using h1
  · simpa [applyUpdate] using h2
  · simpa [applyUpdate] using hsame

/-- C5 (witness): a daily message with `lastSent` earlier today is not
due later today, and after a tick sends the daily message at 09:10, a
tick at 10:30 the same day finds it not due. -/
theorem spec_C5_witness :
    shouldSendRecurring msgDailySent twNowLater = false ∧
    shouldSendRecurring
      (applyUpdate msgDaily (procRecurringMessage envSendWork msgDaily).update)
      twNowLater = false :=
  ⟨spec_C5.1 msgDailySent twNowLater twAnchor "daily" rfl rfl (Or.inl rfl) (by decide),
    spec_C5.2 envSendWork msgDaily twAnchor "daily" rfl rfl (Or.inl rfl)
      (by decide) (by decide) (by decide) twNowLater (by decide)⟩

/-- C6: a single (non-periodic) message is evaluated as due by the tick
exactly when its status is `scheduled` and the current epoch has reached
its scheduled epoch; and the test has no upper bound — it stays true at
every later time, so an arbitrarily overdue scheduled single message
still fires on the next tick. -/
theorem spec_C6 (m : TickMsg) (now st : TWMoment)
    (hty : m.type ≠ "periodic") (hst : m.scheduledTime = some st) :
    (singleDueEval m now = true ↔ (m.status = "scheduled" ∧ st.epoch ≤ now.epoch)) ∧
    (∀ later : TWMoment, now.epoch ≤ later.epoch →
      singleDueEval m now = true → singleDueEval m later = true) := by
  have hty' : (m.type != "periodic") = true := by
    simp [bne_iff_ne]
    exact hty
  have hiff : ∀ t : TWMoment,
      singleDueEval m t = true ↔ (m.status = "scheduled" ∧ st.epoch ≤ t.epoch) := by
    intro t
    simp [singleDueEval, isPendingStatus, hst, hty', Bool.and_eq_true]
  refine ⟨hiff now, ?_⟩
  intro later hle h
  exact (hiff later).mpr ⟨((hiff now).mp h).1, le_trans ((hiff now).mp h).2 hle⟩

/-- C6 (witness): the concrete single message is due at 09:10 and still
due at 10:30. -/
theorem spec_C6_witness :
    singleDueEval msgSingle twNow = true ∧ singleDueEval msgSingle twNowLater = true :=
  ⟨(spec_C6 msgSingle twNow twAnchor (by decide) rfl).1.mpr ⟨rfl, by decide⟩,
    (spec_C6 msgSingle twNow twAnchor (by decide) rfl).2 twNowLater (by decide)
      ((spec_C6 msgSingle twNow twAnchor (by decide) rfl).1.mpr ⟨rfl, by decide⟩)⟩

theorem mk_data (l : List Char) : (String.mk l).data = l := rfl

theorem applyCA_eq_of_contains (x : String) (c a : Option String)
    (hx : containsStr x (currencySymbol (c.getD "") ++ a.getD "") = true) :
    applyCurrencyAmount x c a = x := by
  unfold applyCurrencyAmount
  by_cases hT : (truthyStr c && truthyStr a) = true
  · simp [hT, hx]
  · simp [hT]

theorem applyCA_sub (b : String) (c a : Option String)
    (hT : (truthyStr c && truthyStr a) = true) :
    ∃ s t, (applyCurrencyAmount b c a).data =
      s ++ (currencySymbol (c.getD "") ++ a.getD "").data ++ t := by
  unfold applyCurrencyAmount
  by_cases hc : containsStr b (currencySymbol (c.getD "") ++ a.getD "") = true
  · simp only [hT, if_true, hc]
    exact (listContains_iff _ _).mp hc
  · simp only [hT, if_true]
    rw [if_neg hc]
    refine ⟨b.data ++ ("\n\n金額: " : String).data, [], ?_⟩
    simp [strData_append, List.append_assoc]

/-- C7 (counterexample): the content formatter is not idempotent for
every input: with currency TWD and the amount string containing an
ideographic full stop, the first pass appends the annotation and then the
segmentation pass inserts a line break inside it, so the second pass no
longer finds the rendered symbol-amount substring and appends the
annotation again. -/
theorem spec_C7_counterexample :
    formatContent (formatContent "" (some "TWD") (some "1。2")) (some "TWD") (some "1。2")
      ≠ formatContent "" (some "TWD") (some "1。2") := by decide

/-- C7 (amended): the formatter is idempotent — the sentence-break
normalization is not doubled and the amount annotation is not appended a
second time — for every body and currency whenever the rendered
symbol-amount string contains no ideographic full stop (in particular for
every numeric amount). -/
theorem spec_C7_amended (b : String) (c a : Option String)
    (h : '。' ∉ (currencySymbol (c.getD "") ++ a.getD "").data) :
    formatContent (formatContent b c a) c a = formatContent b c a := by
  by_cases hT : (truthyStr c && truthyStr a) = true
  · have hF1 : ∃ s t, (formatContent b c a).data =
        s ++ (currencySymbol (c.getD "") ++ a.getD "").data ++ t := by
      simp only [formatContent, segmentBreaks, mk_data]
      exact segBreak_preserves_sub h (applyCA_sub b c a hT)
    have hcontains : containsStr (formatContent b c a)
        (currencySymbol (c.getD "") ++ a.getD "") = true := by
      unfold containsStr
      exact (listContains_iff _ _).mpr hF1
    have h2 := applyCA_eq_of_contains (formatContent b c a) c a hcontains
    show segmentBreaks (applyCurrencyAmount (formatContent b c a) c a) = formatContent b c a
    rw [h2]
    simp only [formatContent, segmentBreaks, mk_data]
    rw [segBreak_idem]
  · have hF : ∀ x : String, applyCurrencyAmount x c a = x := by
      intro x; unfold applyCurrencyAmount; simp [hT]
    show segmentBreaks (applyCurrencyAmount (formatContent b c a) c a) = formatContent b c a
    rw [hF]
    simp only [formatContent, segmentBreaks, mk_data]
    rw [segBreak_idem]

/-- C7 (witness): the amended theorem at the concrete inputs of the
spec's Scenario E: body 感謝付款, currency TWD, amount 5000. -/
theorem spec_C7_witness :
    '。' ∉ (currencySymbol ((some "TWD").getD "") ++ (some "5000").getD "").data ∧
    formatContent (formatContent "感謝付款" (some "TWD") (some "5000"))
        (some "TWD") (some "5000")
      = formatContent "感謝付款" (some "TWD") (some "5000") :=
  ⟨by decide, spec_C7_amended "感謝付款" (some "TWD") (some "5000") (by decide)⟩

/-- C8 (counterexample): a valid payload with an empty-string currency
comes back with currency null, and its recurrence fields are dropped by
`createMessage` (the stored record has no `recurringActive` although the
payload set it to true) — so created and fetched records do not match the
payload on all fields other than id and createdAt. -/
theorem spec_C8_counterexample :
    (createMessage emptyStore "2026-10-12T00:00:00.000Z" payloadCex).1.currency ≠
      payloadCex.currency ∧
    (createMessage emptyStore "2026-10-12T00:00:00.000Z" payloadCex).1.recurringActive
      = none ∧
    payloadCex.recurringActive = true := by decide

/-- C8 (amended): for every payload, the record returned by
`createMessage` is exactly the record later returned by `getMessage`, and
its fields relate to the payload as follows: title, content, type,
groupIds and scheduledTime are copied verbatim; status is copied unless
empty (empty becomes "scheduled"); currency, amount and endTime are
copied unless empty (empty becomes null); the recurrence fields
recurringType, lastSent and recurringActive are not stored at all; id and
createdAt are server-assigned. -/
theorem spec_C8_amended (s : MessagesStore) (nowIso : String) (p : InsertMessage) :
    getMessage (createMessage s nowIso p).2 (createMessage s nowIso p).1.id =
      some (createMessage s nowIso p).1 ∧
    (createMessage s nowIso p).1.title = p.title ∧
    (createMessage s nowIso p).1.content = p.content ∧
    (createMessage s nowIso p).1.type = p.type ∧
    (createMessage s nowIso p).1.groupIds = p.groupIds ∧
    (createMessage s nowIso p).1.scheduledTime = p.scheduledTime ∧
    (createMessage s nowIso p).1.status = statusOrScheduled p.status ∧
    (createMessage s nowIso p).1.currency = orNullStr p.currency ∧
    (createMessage s nowIso p).1.amount = orNullStr p.amount ∧
    (createMessage s nowIso p).1.endTime = orNullStr p.endTime ∧
    (createMessage s nowIso p).1.recurringType = none ∧
    (createMessage s nowIso p).1.lastSent = none ∧
    (createMessage s nowIso p).1.recurringActive = none ∧
    (createMessage s nowIso p).1.id = s.nextMessageId ∧
    (createMessage s nowIso p).1.createdAt = nowIso := by
  refine ⟨?_, rfl, rfl, rfl, rfl, rfl, rfl, rfl, rfl, rfl, rfl, rfl, rfl, rfl, rfl⟩
  simp [createMessage, getMessage]

/-- C9: failures are isolated per message within one tick: the guarded
loop records, for every message of its list, that message's own
processing result — error or not — independently of errors raised for
any other message, and the tick body (hence the whole tick callback,
which additionally wraps it in an outer catch) never propagates an
error. -/
theorem spec_C9 :
    (∀ {α β : Type} (f : α → Except String β) (ms : List α),
      loopWithCatch f ms = Except.ok (ms.map (fun m => (m, f m)))) ∧
    (∀ (env : TickEnv) (msgs : List TickMsg),
      tickBody env msgs = Except.ok
        ⟨(singlesOf msgs).map (fun m => (m, Except.ok (procSingleMessage env m))),
          (recurringOf msgs).map (fun m => (m, Except.ok (procRecurringMessage env m)))⟩ ∧
      runTick env msgs = some
        ⟨(singlesOf msgs).map (fun m => (m, Except.ok (procSingleMessage env m))),
          (recurringOf msgs).map (fun m => (m, Except.ok (procRecurringMessage env m)))⟩) := by
  constructor
  · intro α β f ms
    exact loopWithCatch_ok f ms
  · intro env msgs
    have h1 := loopWithCatch_ok (fun m => Except.ok (procSingleMessage env m)) (singlesOf msgs)
    have h2 := loopWithCatch_ok (fun m => Except.ok (procRecurringMessage env m)) (recurringOf msgs)
    constructor
    · simp [tickBody, h1, h2]
    · simp [runTick, tickBody, h1, h2]

/-- C10: when currency or amount is absent, the formatter performs only
the segmentation pass, which rewrites the body purely locally — each
character is kept, and a line break is inserted exactly after those
ideographic full stops not already followed by one — and any body
containing no ideographic full stop (in particular any body whose only
sentence punctuation is ASCII ".", "!" or "?") is returned unchanged. -/
theorem spec_C10 (b : String) (c a : Option String)
    (h : truthyStr c = false ∨ truthyStr a = false) :
    formatContent b c a = String.mk (catLists ((withNext b.data).map insStep)) ∧
    ('。' ∉ b.data → formatContent b c a = b) := by
  have hT : (truthyStr c && truthyStr a) = false := by
    rcases h with h | h <;> simp [h]
  have hF : applyCurrencyAmount b c a = b := by
    unfold applyCurrencyAmount; simp [hT]
  constructor
  · show segmentBreaks (applyCurrencyAmount b c a) = _
    rw [hF]
    simp only [segmentBreaks]
    rw [segBreak_withNext]
  · intro hmem
    show segmentBreaks (applyCurrencyAmount b c a) = b
    rw [hF]
    simp only [segmentBreaks]
    rw [segBreak_not_mem hmem]

/-- C10 (witness): a body with only ASCII sentence punctuation and no
currency is returned unchanged. -/
theorem spec_C10_witness :
    formatContent "Hi! Are you ok? Yes." none (some "5000") = "Hi! Are you ok? Yes." :=
  (spec_C10 "Hi! Are you ok? Yes." none (some "5000") (Or.inl (by decide))).2 (by decide)

end LineNotifier
